import Mathlib

/-!
# The demo blog server (`src/demo/server/index.js`)

A shallow embedding of the request handlers of the blog server and the
properties of them that the specification states.

* A JavaScript string is the list of its UTF-16 code units, which is what
  `slice`, `replace`, `endsWith` and `+` work on.
* The values the front matter of a post can hold are the type `JSValue`;
  `undefined` is what reading an absent key gives.
* What the handlers take from outside the file is a parameter: the libraries
  (`gray-matter`, `marked`, the `Date` constructor) are the fields of `Runtime`,
  the posts directory is a `PostsDir`, the process environment is an `Env`, and
  the clock is the sequence of values `new Date().toISOString()` takes.
-/

namespace BlogServer

/-! ## Strings -/

/-- A JavaScript string, as the list of its UTF-16 code units. -/
abbrev JSString := List Nat

/-- The code units of a string literal of the source (the literals are ASCII, one
code unit for each character). -/
def lit (s : String) : JSString := s.toList.map Char.toNat

/-- The method `String.prototype.endsWith(searchString)`. -/
def endsWith (s searchString : JSString) : Bool := searchString.isSuffixOf s

/-- The method `String.prototype.replace(pattern, replacement)` for a string
pattern and a replacement without `$`: the first occurrence of the pattern is
replaced, a string without the pattern is returned as it is. -/
def replace (pattern replacement : JSString) : JSString → JSString
  | [] => if pattern.isPrefixOf [] then replacement else []
  | c :: cs =>
    if pattern.isPrefixOf (c :: cs) then replacement ++ (c :: cs).drop pattern.length
    else c :: replace pattern replacement cs

/-- The clamping of a relative index of `slice`: a negative index counts from the
end, and the result lies between 0 and the length. -/
def relativeIndex (len : Nat) (i : Int) : Nat :=
  if i < 0 then (len + i).toNat else min i.toNat len

/-- The method `String.prototype.slice(start, end)`; `none` for an `end` that is
not passed. -/
def slice (s : JSString) (start : Int) (stop : Option Int) : JSString :=
  let len := s.length
  let first := relativeIndex len start
  let final := match stop with
    | none => len
    | some e => relativeIndex len e
  (s.drop first).take (final - first)

/-! ## Values -/

/-- A JavaScript number: `NaN`, an infinity or a finite value (the two zeros are
one value here, both are falsy). -/
inductive JSNumber where
  | nan
  | infinity (negative : Bool)
  | finite (q : ℚ)
  deriving DecidableEq

/-- The values a front matter key or a request field can hold. A `Date` object
carries its time value, `none` for an invalid date. -/
inductive JSValue where
  | undefined
  | null
  | bool (b : Bool)
  | num (n : JSNumber)
  | str (s : JSString)
  | date (time : Option Int)
  | arr (items : List JSValue)
  | obj (props : List (JSString × JSValue))

/-- An object, as the list of its own properties in insertion order. -/
abbrev JSObject := List (JSString × JSValue)

/-- The abstract operation ToBoolean on a number. -/
def JSNumber.truthy : JSNumber → Bool
  | .nan => false
  | .infinity _ => true
  | .finite q => decide (q ≠ 0)

/-- The abstract operation ToBoolean. -/
def JSValue.truthy : JSValue → Bool
  | .undefined => false
  | .null => false
  | .bool b => b
  | .num n => n.truthy
  | .str s => !s.isEmpty
  | .date _ => true
  | .arr _ => true
  | .obj _ => true

/-- The operator `a || b`. -/
def JSValue.or (a b : JSValue) : JSValue := if a.truthy then a else b

/-- The property read `o.key`: `undefined` for a key the object does not have. -/
def JSObject.get (o : JSObject) (key : JSString) : JSValue :=
  match o.lookup key with
  | some v => v
  | none => .undefined

/-- The property write that an object literal makes: the value of a key the object
has is replaced, a new key is added at the end. -/
def JSObject.set : JSObject → JSString → JSValue → JSObject
  | [], key, v => [(key, v)]
  | (k, w) :: rest, key, v =>
    if k = key then (k, v) :: rest else (k, w) :: JSObject.set rest key v

/-- A value that is a string or `undefined`: an environment variable read from
`process.env`, a request header; `none` when it is not set. -/
abbrev MaybeString := Option JSString

/-- The abstract operation ToBoolean on such a value: `undefined` and the empty
string are falsy. -/
def MaybeString.truthy : MaybeString → Bool
  | none => false
  | some s => !s.isEmpty

/-- The string a template literal puts in for such a value. -/
def MaybeString.interpolate : MaybeString → JSString
  | none => lit "undefined"
  | some s => s

/-! ## What the handlers take from outside -/

/-- The constants read from `process.env` when the module loads. -/
structure Env where
  ANALYTICS_KEY_1 : MaybeString
  ANALYTICS_KEY_2 : MaybeString
  PAYMENT_API_KEY : MaybeString
  BACKEND_SECRET : MaybeString

/-- The library functions the handlers call. `matter` is `gray-matter` (the
front matter and the body of a document, `none` when it throws), `marked` is the
markdown renderer, `newDate v` is the time value of `new Date(v)` in milliseconds,
`none` when it is `NaN`. -/
structure Runtime where
  matter : JSString → Option (JSObject × JSString)
  marked : JSString → JSString
  newDate : JSValue → Option Int

/-- The posts directory: `readdir` is the outcome of `fs.readdir(postsDir)`,
`readFile name` the outcome of `fs.readFile(path.join(postsDir, name), 'utf-8')`,
each `none` when the promise rejects. -/
structure PostsDir where
  readdir : Option (List JSString)
  readFile : JSString → Option JSString

/-- A response: `res.json(body)`, or `res.status(status).json` of an object with the
one key `error`. -/
inductive Response (β : Type) where
  | json (status : Nat) (body : β)
  | error (status : Nat) (error : JSString)

/-! ## GET /api/config -/

/-- The body of the response of `/api/config`; `none` is `null`. -/
structure ConfigBody where
  analyticsEnabled : Bool
  paymentsEnabled : Bool
  googleAnalyticsId : Option JSString
  mixpanelToken : Option JSString

/-- The object `/api/config` sends. -/
def configBody (env : Env) : ConfigBody :=
  { analyticsEnabled := env.ANALYTICS_KEY_1.truthy && env.ANALYTICS_KEY_2.truthy
    paymentsEnabled := env.PAYMENT_API_KEY.truthy
    googleAnalyticsId :=
      match env.ANALYTICS_KEY_1 with
      | some key1 =>
        if MaybeString.truthy (some key1) then some (lit "GA-" ++ slice key1 (-8) none) else none
      | none => none
    mixpanelToken :=
      match env.ANALYTICS_KEY_2 with
      | some key2 =>
        if MaybeString.truthy (some key2) then some (slice key2 0 (some 4) ++ lit "...") else none
      | none => none }

/-- The handler of `GET /api/config`. -/
def getConfig (env : Env) : Response ConfigBody := .json 200 (configBody env)

/-! ## GET /api/posts -/

/-- An entry of the list `/api/posts` returns. -/
structure PostSummary where
  slug : JSString
  title : JSValue
  date : JSValue
  author : JSValue
  excerpt : JSValue
  tags : JSValue

/-- The slug of a file name: `file.replace('.md', '')`. -/
def slugOf (file : JSString) : JSString := replace (lit ".md") [] file

/-- The object pushed for a file: `data` and `markdownContent` are what `matter`
returned for its content, `nowISO` is the value of `new Date().toISOString()`
at that moment. -/
def summarize (file : JSString) (data : JSObject) (markdownContent nowISO : JSString) :
    PostSummary :=
  { slug := slugOf file
    title := (data.get (lit "title")).or (.str (lit "Untitled"))
    date := (data.get (lit "date")).or (.str nowISO)
    author := (data.get (lit "author")).or (.str (lit "Anonymous"))
    excerpt := (data.get (lit "excerpt")).or (.str (slice markdownContent 0 (some 150) ++ lit "..."))
    tags := (data.get (lit "tags")).or (.arr []) }

/-- The loop over the directory listing: `posts` is the array built so far, `i` the
index of the next file, `now i` the clock's ISO string while file `i` is handled.
`none` when a read or `matter` throws. -/
def buildPosts (rt : Runtime) (dir : PostsDir) (now : Nat → JSString) :
    List JSString → Nat → List PostSummary → Option (List PostSummary)
  | [], _, posts => some posts
  | file :: rest, i, posts =>
    if endsWith file (lit ".md") then
      match dir.readFile file with
      | none => none
      | some content =>
        match rt.matter content with
        | none => none
        | some (data, markdownContent) =>
          buildPosts rt dir now rest (i + 1) (posts ++ [summarize file data markdownContent (now i)])
    else buildPosts rt dir now rest (i + 1) posts

/-- The comparator of the sort, `new Date(b.date) - new Date(a.date)`; `none` is
`NaN`. -/
def compareDates (rt : Runtime) (a b : PostSummary) : Option Int :=
  match rt.newDate b.date, rt.newDate a.date with
  | some tb, some ta => some (tb - ta)
  | _, _ => none

/-- The comparison `Array.prototype.sort` makes with a comparator: a `NaN` result
counts as `+0`. -/
def sortCompare {α : Type} (comparefn : α → α → Option Int) (x y : α) : Int :=
  match comparefn x y with
  | some v => v
  | none => 0

/-- The insertion of `x` in front of a sorted list: `x` goes before the first
element it does not compare greater than. -/
def orderedInsert {α : Type} (comparefn : α → α → Option Int) (x : α) : List α → List α
  | [] => [x]
  | y :: ys =>
    if sortCompare comparefn x y ≤ 0 then x :: y :: ys
    else y :: orderedInsert comparefn x ys

/-- The method `Array.prototype.sort(comparefn)`, as a stable insertion sort. The
language requires the sort to be stable, so for a consistent comparator every
implementation returns this list. -/
def arraySort {α : Type} (comparefn : α → α → Option Int) : List α → List α
  | [] => []
  | x :: xs => orderedInsert comparefn x (arraySort comparefn xs)

/-- The body of the `try` block of `GET /api/posts`: the sorted list, `none` when
something throws. -/
def listPosts (rt : Runtime) (dir : PostsDir) (now : Nat → JSString) :
    Option (List PostSummary) :=
  match dir.readdir with
  | none => none
  | some files =>
    match buildPosts rt dir now files 0 [] with
    | none => none
    | some posts => some (arraySort (compareDates rt) posts)

/-- The handler of `GET /api/posts`. -/
def getPosts (rt : Runtime) (dir : PostsDir) (now : Nat → JSString) :
    Response (List PostSummary) :=
  match listPosts rt dir now with
  | some posts => .json 200 posts
  | none => .error 500 (lit "Failed to load posts")

/-! ## GET /api/posts/:slug -/

/-- The handler of `GET /api/posts/:slug`; `slug` is `req.params.slug`. -/
def getPost (rt : Runtime) (dir : PostsDir) (slug : JSString) : Response JSObject :=
  match dir.readFile (slug ++ lit ".md") with
  | none => .error 404 (lit "Post not found")
  | some content =>
    match rt.matter content with
    | none => .error 404 (lit "Post not found")
    | some (data, markdownContent) =>
      .json 200
        ((JSObject.set data (lit "slug") (.str slug)).set (lit "content")
          (.str (rt.marked markdownContent)))

/-! ## POST /api/subscribe -/

/-- The body of a successful response of `/api/subscribe`. -/
structure SubscribeBody where
  success : Bool
  message : JSString
  premium : Bool
  deriving DecidableEq

/-- The handler of `POST /api/subscribe`; `email` is `req.body.email`. -/
def subscribe (env : Env) (email : JSValue) : Response SubscribeBody :=
  if !email.truthy then .error 400 (lit "Email required")
  else
    .json 200
      { success := true
        message := lit "Subscription successful"
        premium := env.PAYMENT_API_KEY.truthy }

/-! ## GET /api/stats -/

/-- The body of a successful response of `/api/stats`. -/
structure StatsBody where
  totalPosts : Nat
  totalSubscribers : Nat
  monthlyRevenue : Nat
  activeUsers : Nat
  deriving DecidableEq

/-- The statistics `/api/stats` sends. -/
def fixedStats : StatsBody :=
  { totalPosts := 4
    totalSubscribers := 127
    monthlyRevenue := 3420
    activeUsers := 89 }

/-- The handler of `GET /api/stats`; `authHeader` is `req.headers.authorization`,
`none` when the request has no such header. -/
def getStats (env : Env) (authHeader : MaybeString) : Response StatsBody :=
  if !(MaybeString.truthy authHeader) ||
      decide (authHeader ≠ some (lit "Bearer " ++ env.BACKEND_SECRET.interpolate)) then
    .error 401 (lit "Unauthorized")
  else
    .json 200 fixedStats

/-! ## The properties the specification names -/

/-- The order of the listing: both dates parse and the first is not before the
second. -/
def dateNotBefore (rt : Runtime) (a b : PostSummary) : Prop :=
  ∃ ta tb : Int, rt.newDate a.date = some ta ∧ rt.newDate b.date = some tb ∧ tb ≤ ta

/-- The method `String.prototype.includes`: `part` occurs in `s` as a substring. -/
def includes (s part : JSString) : Prop := part <:+: s

/-! ## Sample inputs

Concrete documents, directories and clock readings, with the values the libraries
return on them. -/

/-- A document without front matter. -/
def helloDoc : JSString := lit "Hello"

/-- A second document without front matter. -/
def worldDoc : JSString := lit "World"

/-- A document with every key of the front matter. -/
def januaryDoc : JSString :=
  lit "---\ntitle: First\ndate: 2024-01-15\nauthor: Ann\nexcerpt: Intro\ntags: [demo]\n---\nHello"

/-- A document with a later date. -/
def marchDoc : JSString :=
  lit "---\ntitle: Second\ndate: 2024-03-01\nauthor: Bob\nexcerpt: Next\ntags: [demo]\n---\nWorld"

/-- A document whose front matter has an empty excerpt. -/
def emptyExcerptDoc : JSString := lit "---\nexcerpt: ''\n---\nHello"

/-- The front matter of `januaryDoc`; the YAML date is a `Date` at midnight UTC. -/
def januaryData : JSObject :=
  [(lit "title", .str (lit "First")), (lit "date", .date (some 1705276800000)),
   (lit "author", .str (lit "Ann")), (lit "excerpt", .str (lit "Intro")),
   (lit "tags", .arr [.str (lit "demo")])]

/-- The front matter of `marchDoc`. -/
def marchData : JSObject :=
  [(lit "title", .str (lit "Second")), (lit "date", .date (some 1709251200000)),
   (lit "author", .str (lit "Bob")), (lit "excerpt", .str (lit "Next")),
   (lit "tags", .arr [.str (lit "demo")])]

/-- The libraries on the sample inputs. `matter` splits the three documents with
front matter and returns any other document whole with empty data, which is what
`gray-matter` does for a document that does not start with `---`. `marked` is given
on the body `Hello` and `newDate` on `Date` objects and on the two clock readings;
the other values of the two are not used. -/
def sampleRuntime : Runtime where
  matter := fun doc =>
    if doc = januaryDoc then some (januaryData, lit "Hello")
    else if doc = marchDoc then some (marchData, lit "World")
    else if doc = emptyExcerptDoc then some ([(lit "excerpt", .str [])], lit "Hello")
    else some ([], doc)
  marked := fun body => if body = lit "Hello" then lit "<p>Hello</p>\n" else body
  newDate := fun v =>
    match v with
    | .date time => time
    | .str s =>
      if s = lit "2024-05-01T00:00:00.000Z" then some 1714521600000
      else if s = lit "2024-05-02T00:00:00.000Z" then some 1714608000000
      else none
    | _ => none

/-- A posts directory of readable files, given as names with contents. -/
def dirOf (files : List (JSString × JSString)) : PostsDir where
  readdir := some (files.map Prod.fst)
  readFile := fun name => files.lookup name

/-- A clock that reads 1 May 2024 during the whole request. -/
def clockMay1 : Nat → JSString := fun _ => lit "2024-05-01T00:00:00.000Z"

/-- A clock that reads 2 May 2024 during the whole request. -/
def clockMay2 : Nat → JSString := fun _ => lit "2024-05-02T00:00:00.000Z"

/-- The directory with the two dated posts. -/
def datedDir : PostsDir := dirOf [(lit "a.md", januaryDoc), (lit "b.md", marchDoc)]

/-- The entry of the listing for `a.md` of `datedDir`. -/
def januarySummary : PostSummary :=
  { slug := lit "a", title := .str (lit "First"), date := .date (some 1705276800000),
    author := .str (lit "Ann"), excerpt := .str (lit "Intro"),
    tags := .arr [.str (lit "demo")] }

/-- The entry of the listing for `b.md` of `datedDir`. -/
def marchSummary : PostSummary :=
  { slug := lit "b", title := .str (lit "Second"), date := .date (some 1709251200000),
    author := .str (lit "Bob"), excerpt := .str (lit "Next"),
    tags := .arr [.str (lit "demo")] }

/-! ## Theorems -/

/-! ### Strings -/

theorem slice_zero_eq_take (s : JSString) (n : Nat) :
    slice s 0 (some (n : Int)) = s.take n := by
  have h : ¬ ((n : Int) < 0) := by omega
  simp only [slice, relativeIndex, lt_self_iff_false, if_false, Int.toNat_zero, Nat.zero_min,
    List.drop_zero, Nat.sub_zero, h, Int.toNat_ofNat]
  by_cases hn : n ≤ s.length
  · rw [Nat.min_eq_left hn]
  · have hlen : s.length ≤ n := by omega
    rw [Nat.min_eq_right hlen, List.take_of_length_le hlen, List.take_of_length_le (le_refl _)]

theorem length_slice_last_eight (s : JSString) : (slice s (-8) none).length ≤ 8 := by
  simp only [slice, relativeIndex, List.length_take, List.length_drop]
  split <;> omega

/-! ### Objects -/

theorem get_set_self (o : JSObject) (key : JSString) (v : JSValue) :
    JSObject.get (JSObject.set o key v) key = v := by
  induction o with
  | nil => simp [JSObject.set, JSObject.get, List.lookup]
  | cons kv rest ih =>
    obtain ⟨k, w⟩ := kv
    unfold JSObject.set
    split
    · rename_i hk
      subst hk
      simp [JSObject.get, List.lookup]
    · rename_i hk
      have hk2 : (key == k) = false := by
        simp only [beq_eq_false_iff_ne, ne_eq]
        exact fun h => hk h.symm
      simp only [JSObject.get, List.lookup, hk2] at ih ⊢
      exact ih

theorem get_set_other (o : JSObject) (key other : JSString) (v : JSValue) (h : other ≠ key) :
    JSObject.get (JSObject.set o key v) other = JSObject.get o other := by
  induction o with
  | nil =>
    have hk : (other == key) = false := by simpa using h
    simp [JSObject.set, JSObject.get, List.lookup, hk]
  | cons kv rest ih =>
    obtain ⟨k, w⟩ := kv
    unfold JSObject.set
    split
    · rename_i hk
      subst hk
      have hk : (other == k) = false := by simpa using h
      simp [JSObject.get, List.lookup, hk]
    · by_cases hok : other = k
      · subst hok
        simp [JSObject.get, List.lookup]
      · have hk : (other == k) = false := by simpa using hok
        simp only [JSObject.get, List.lookup, hk] at ih ⊢
        exact ih

/-! ### The sort -/

theorem mem_orderedInsert {α : Type} (cmp : α → α → Option Int) (x y : α) (l : List α) :
    y ∈ orderedInsert cmp x l ↔ y = x ∨ y ∈ l := by
  induction l with
  | nil => simp [orderedInsert]
  | cons z zs ih =>
    unfold orderedInsert
    split
    · simp
    · simp only [List.mem_cons, ih]
      tauto

theorem mem_arraySort {α : Type} (cmp : α → α → Option Int) (y : α) (l : List α) :
    y ∈ arraySort cmp l ↔ y ∈ l := by
  induction l with
  | nil => simp [arraySort]
  | cons z zs ih => simp [arraySort, mem_orderedInsert, ih]

theorem sortCompare_compareDates (rt : Runtime) (a b : PostSummary) (ta tb : Int)
    (ha : rt.newDate a.date = some ta) (hb : rt.newDate b.date = some tb) :
    sortCompare (compareDates rt) a b = tb - ta := by
  simp [sortCompare, compareDates, ha, hb]

theorem orderedInsert_sorted (rt : Runtime) (x : PostSummary) (l : List PostSummary)
    (hx : (rt.newDate x.date).isSome)
    (hl : ∀ p ∈ l, (rt.newDate p.date).isSome)
    (hs : l.Pairwise (dateNotBefore rt)) :
    (orderedInsert (compareDates rt) x l).Pairwise (dateNotBefore rt) := by
  obtain ⟨tx, htx⟩ := Option.isSome_iff_exists.mp hx
  induction l with
  | nil => simp [orderedInsert]
  | cons y ys ih =>
    obtain ⟨ty, hty⟩ := Option.isSome_iff_exists.mp (hl y (List.mem_cons_self y ys))
    have hys : ∀ p ∈ ys, (rt.newDate p.date).isSome := fun p hp =>
      hl p (List.mem_cons_of_mem y hp)
    rw [List.pairwise_cons] at hs
    have hc := sortCompare_compareDates rt x y tx ty htx hty
    unfold orderedInsert
    split
    · rename_i hle
      rw [hc] at hle
      refine List.pairwise_cons.mpr ⟨?_, List.pairwise_cons.mpr hs⟩
      intro z hz
      rcases List.mem_cons.mp hz with rfl | hz
      · exact ⟨tx, ty, htx, hty, by omega⟩
      · obtain ⟨ty2, tz, h1, h2, h3⟩ := hs.1 z hz
        rw [hty] at h1
        cases h1
        exact ⟨tx, tz, htx, h2, by omega⟩
    · rename_i hgt
      rw [hc] at hgt
      refine List.pairwise_cons.mpr ⟨?_, ih hys hs.2⟩
      intro z hz
      rcases (mem_orderedInsert _ _ _ _).mp hz with rfl | hz
      · exact ⟨ty, tx, hty, htx, by omega⟩
      · exact hs.1 z hz

theorem arraySort_sorted (rt : Runtime) (l : List PostSummary)
    (hl : ∀ p ∈ l, (rt.newDate p.date).isSome) :
    (arraySort (compareDates rt) l).Pairwise (dateNotBefore rt) := by
  induction l with
  | nil => simp [arraySort]
  | cons x xs ih =>
    have hxs : ∀ p ∈ xs, (rt.newDate p.date).isSome := fun p hp =>
      hl p (List.mem_cons_of_mem x hp)
    exact orderedInsert_sorted rt x _ (hl x (List.mem_cons_self x xs))
      (fun p hp => hxs p ((mem_arraySort _ _ _).mp hp)) (ih hxs)

/-- C1: when the listing succeeds and the date of every entry parses, the entries are
in descending order of date: of two entries the earlier one has a timestamp at least
that of the later one. -/
theorem listPosts_sorted_by_date_descending (rt : Runtime) (dir : PostsDir)
    (now : Nat → JSString) (posts : List PostSummary)
    (hlist : getPosts rt dir now = .json 200 posts)
    (hdates : ∀ p ∈ posts, (rt.newDate p.date).isSome) :
    posts.Pairwise (dateNotBefore rt) := by
  unfold getPosts at hlist
  split at hlist
  · rename_i ps hps
    cases hlist
    unfold listPosts at hps
    split at hps
    · cases hps
    · split at hps
      · cases hps
      · rename_i built _
        cases hps
        exact arraySort_sorted rt built
          (fun p hp => hdates p ((mem_arraySort _ _ _).mpr hp))
  · cases hlist

/-- C1, on the directory of the two dated posts: the listing is the March post, then
the January post. -/
theorem listPosts_sorted_by_date_descending_witness :
    getPosts sampleRuntime datedDir clockMay1 = .json 200 [marchSummary, januarySummary] ∧
    [marchSummary, januarySummary].Pairwise (dateNotBefore sampleRuntime) :=
  ⟨rfl, listPosts_sorted_by_date_descending sampleRuntime datedDir clockMay1
    [marchSummary, januarySummary] rfl (by decide)⟩

/-! ### The listing succeeds on a readable directory -/

theorem buildPosts_succeeds (rt : Runtime) (dir : PostsDir) (now : Nat → JSString)
    (files : List JSString)
    (hfiles : ∀ file ∈ files, endsWith file (lit ".md") = true →
      ∃ content data body, dir.readFile file = some content ∧
        rt.matter content = some (data, body))
    (i : Nat) (acc : List PostSummary) :
    ∃ posts, buildPosts rt dir now files i acc = some posts := by
  induction files generalizing i acc with
  | nil => exact ⟨acc, rfl⟩
  | cons file rest ih =>
    have hrest : ∀ f ∈ rest, endsWith f (lit ".md") = true →
        ∃ content data body, dir.readFile f = some content ∧
          rt.matter content = some (data, body) :=
      fun f hf => hfiles f (List.mem_cons_of_mem _ hf)
    unfold buildPosts
    split
    · rename_i hmd
      obtain ⟨content, data, body, hread, hmatter⟩ := hfiles file (List.mem_cons_self _ _) hmd
      simp only [hread, hmatter]
      exact ih hrest _ _
    · exact ih hrest _ _

theorem getPosts_succeeds (rt : Runtime) (dir : PostsDir) (now : Nat → JSString)
    (files : List JSString) (hdir : dir.readdir = some files)
    (hfiles : ∀ file ∈ files, endsWith file (lit ".md") = true →
      ∃ content data body, dir.readFile file = some content ∧
        rt.matter content = some (data, body)) :
    ∃ posts, getPosts rt dir now = .json 200 posts := by
  obtain ⟨built, hbuilt⟩ := buildPosts_succeeds rt dir now files hfiles 0 []
  exact ⟨arraySort (compareDates rt) built, by simp only [getPosts, listPosts, hdir, hbuilt]⟩

/-! ### GET /api/posts -/

/-- Every entry the loop adds is the summary of a markdown file of the listing that
was read and split. -/
theorem buildPosts_mem (rt : Runtime) (dir : PostsDir) (now : Nat → JSString)
    (files : List JSString) (i : Nat) (acc posts : List PostSummary)
    (h : buildPosts rt dir now files i acc = some posts) (p : PostSummary) (hp : p ∈ posts) :
    p ∈ acc ∨ ∃ file content data body k, file ∈ files ∧ endsWith file (lit ".md") = true ∧
      dir.readFile file = some content ∧ rt.matter content = some (data, body) ∧
      p = summarize file data body (now k) := by
  induction files generalizing i acc with
  | nil =>
    simp only [buildPosts, Option.some.injEq] at h
    subst h
    exact Or.inl hp
  | cons file rest ih =>
    unfold buildPosts at h
    split at h
    · rename_i hmd
      split at h
      · cases h
      · rename_i content hread
        split at h
        · cases h
        · rename_i data body hmatter
          rcases ih _ _ h with hacc | ⟨f, c, d, b, k, hf, hrest⟩
          · rcases List.mem_append.mp hacc with hacc | hnew
            · exact Or.inl hacc
            · rw [List.mem_singleton] at hnew
              exact Or.inr ⟨file, content, data, body, i, List.mem_cons_self _ _, hmd, hread,
                hmatter, hnew⟩
          · exact Or.inr ⟨f, c, d, b, k, List.mem_cons_of_mem _ hf, hrest⟩
    · rcases ih _ _ h with hacc | ⟨f, c, d, b, k, hf, hrest⟩
      · exact Or.inl hacc
      · exact Or.inr ⟨f, c, d, b, k, List.mem_cons_of_mem _ hf, hrest⟩

/-- Every entry of a successful listing is the summary of a markdown file of the
directory. -/
theorem getPosts_mem (rt : Runtime) (dir : PostsDir) (now : Nat → JSString)
    (posts : List PostSummary) (h : getPosts rt dir now = .json 200 posts)
    (p : PostSummary) (hp : p ∈ posts) :
    ∃ files file content data body k, dir.readdir = some files ∧ file ∈ files ∧
      endsWith file (lit ".md") = true ∧ dir.readFile file = some content ∧
      rt.matter content = some (data, body) ∧ p = summarize file data body (now k) := by
  unfold getPosts at h
  split at h
  · rename_i ps hps
    cases h
    unfold listPosts at hps
    split at hps
    · cases hps
    · rename_i files hfiles
      split at hps
      · cases hps
      · rename_i built hbuilt
        cases hps
        rcases buildPosts_mem rt dir now files 0 [] built hbuilt p
          ((mem_arraySort _ _ _).mp hp) with hnil | ⟨f, c, d, b, k, hrest⟩
        · cases hnil
        · exact ⟨files, f, c, d, b, k, hfiles, hrest⟩
  · cases h

/-- C10, as the code has it: the excerpt of an entry of the listing is the excerpt
of the front matter of its file when that value is truthy, and otherwise the first
150 code units of the body as `matter` returned it, not rendered, followed by
`...`. -/
theorem listPosts_excerpt (rt : Runtime) (dir : PostsDir) (now : Nat → JSString)
    (posts : List PostSummary) (h : getPosts rt dir now = .json 200 posts)
    (p : PostSummary) (hp : p ∈ posts) :
    ∃ file content data body, dir.readFile file = some content ∧
      rt.matter content = some (data, body) ∧ p.slug = slugOf file ∧
      p.excerpt =
        if (data.get (lit "excerpt")).truthy then data.get (lit "excerpt")
        else .str (body.take 150 ++ lit "...") := by
  obtain ⟨files, file, content, data, body, k, _, _, _, hread, hmatter, hsum⟩ :=
    getPosts_mem rt dir now posts h p hp
  refine ⟨file, content, data, body, hread, hmatter, ?_, ?_⟩
  · rw [hsum]
    rfl
  · have h150 : slice body 0 (some ((150 : Nat) : Int)) = body.take 150 :=
      slice_zero_eq_take body 150
    simp only [Nat.cast_ofNat] at h150
    rw [hsum]
    simp only [summarize, JSValue.or, h150]

/-- C10, on the directory of the two dated posts: the excerpt of the January post is
the one of its front matter. -/
theorem listPosts_excerpt_witness :
    ∃ file content data body, datedDir.readFile file = some content ∧
      sampleRuntime.matter content = some (data, body) ∧ januarySummary.slug = slugOf file ∧
      januarySummary.excerpt =
        if (data.get (lit "excerpt")).truthy then data.get (lit "excerpt")
        else .str (body.take 150 ++ lit "...") :=
  listPosts_excerpt sampleRuntime datedDir clockMay1 [marchSummary, januarySummary] rfl
    januarySummary (by simp)

/-- C10 fails as stated: for the post `Hello` without front matter the excerpt is
`Hello...`, from the raw body, and not the start of the rendered body
`<p>Hello</p>`; and for a post whose front matter has the excerpt `''` the excerpt is
`Hello...`, not the value of the front matter. -/
theorem excerpt_not_from_rendered_body :
    (∃ p, getPosts sampleRuntime (dirOf [(lit "a.md", helloDoc)]) clockMay1 = .json 200 [p] ∧
      sampleRuntime.matter helloDoc = some ([], lit "Hello") ∧
      p.excerpt = .str (lit "Hello...") ∧
      p.excerpt ≠
        .str ((sampleRuntime.marked (lit "Hello")).take 150 ++ lit "...")) ∧
    (∃ p, getPosts sampleRuntime (dirOf [(lit "a.md", emptyExcerptDoc)]) clockMay1
        = .json 200 [p] ∧
      sampleRuntime.matter emptyExcerptDoc = some ([(lit "excerpt", .str [])], lit "Hello") ∧
      p.excerpt = .str (lit "Hello...") ∧ p.excerpt ≠ .str []) := by
  refine ⟨⟨_, rfl, rfl, rfl, ?_⟩, ⟨_, rfl, rfl, rfl, ?_⟩⟩
  · show JSValue.str (lit "Hello...") ≠ JSValue.str (lit "<p>Hello</p>\n...")
    simp only [ne_eq, JSValue.str.injEq]
    decide
  · show JSValue.str (lit "Hello...") ≠ JSValue.str []
    simp only [ne_eq, JSValue.str.injEq]
    decide

/-! ### Slugs -/

/-- C2 fails on the code: the file `a.mdx.md` ends in `.md`, its slug in the listing
is `ax.md` (the first `.md` is removed, not the extension), the slug followed by
`.md` is not the file name, and the detail handler called with the listed slug opens
`ax.md.md` and answers 404. -/
theorem getPost_listed_slug_not_found :
    endsWith (lit "a.mdx.md") (lit ".md") = true ∧
    slugOf (lit "a.mdx.md") = lit "ax.md" ∧
    slugOf (lit "a.mdx.md") ++ lit ".md" ≠ lit "a.mdx.md" ∧
    (∃ p, getPosts sampleRuntime (dirOf [(lit "a.mdx.md", helloDoc)]) clockMay1
        = .json 200 [p] ∧ p.slug = lit "ax.md" ∧
      getPost sampleRuntime (dirOf [(lit "a.mdx.md", helloDoc)]) p.slug
        = .error 404 (lit "Post not found")) :=
  ⟨by decide, by decide, by decide, _, rfl, rfl, rfl⟩

/-- C9 fails on the code: the distinct file names `x.mdy.md` and `xy.md.md` both end
in `.md` and have the same slug `xy.md`, and the listing of a directory holding the
two has two entries with that slug. -/
theorem listPosts_duplicate_slugs :
    lit "x.mdy.md" ≠ lit "xy.md.md" ∧
    endsWith (lit "x.mdy.md") (lit ".md") = true ∧
    endsWith (lit "xy.md.md") (lit ".md") = true ∧
    slugOf (lit "x.mdy.md") = slugOf (lit "xy.md.md") ∧
    (∃ p q, getPosts sampleRuntime
        (dirOf [(lit "x.mdy.md", helloDoc), (lit "xy.md.md", worldDoc)]) clockMay1
        = .json 200 [p, q] ∧ p.slug = lit "xy.md" ∧ q.slug = lit "xy.md") :=
  ⟨by decide, by decide, by decide, by decide, _, _, rfl, rfl, rfl⟩

/-! ### GET /api/posts/:slug -/

/-- C3, as the code has it: when the detail handler, called with the slug of the
summary of a document, reads that document, it answers 200 and the detail has the
slug of the summary; and for each of `title`, `author`, `date` and `tags` on its
own, when the front matter has a truthy value for that key, the detail has the value
the summary has. -/
theorem detail_matches_summary (rt : Runtime) (dir : PostsDir)
    (file content : JSString) (data : JSObject) (body nowISO : JSString)
    (hread : dir.readFile ((summarize file data body nowISO).slug ++ lit ".md") = some content)
    (hmatter : rt.matter content = some (data, body)) :
    ∃ detail, getPost rt dir (summarize file data body nowISO).slug = .json 200 detail ∧
      detail.get (lit "slug") = .str (summarize file data body nowISO).slug ∧
      ((data.get (lit "title")).truthy = true →
        detail.get (lit "title") = (summarize file data body nowISO).title) ∧
      ((data.get (lit "author")).truthy = true →
        detail.get (lit "author") = (summarize file data body nowISO).author) ∧
      ((data.get (lit "date")).truthy = true →
        detail.get (lit "date") = (summarize file data body nowISO).date) ∧
      ((data.get (lit "tags")).truthy = true →
        detail.get (lit "tags") = (summarize file data body nowISO).tags) := by
  refine ⟨(JSObject.set data (lit "slug") (.str (summarize file data body nowISO).slug)).set
    (lit "content") (.str (rt.marked body)), by simp only [getPost, hread, hmatter],
    ?_, ?_, ?_, ?_, ?_⟩
  · rw [get_set_other _ _ _ _ (by decide), get_set_self]
  · intro htitle
    rw [get_set_other _ _ _ _ (by decide), get_set_other _ _ _ _ (by decide)]
    simp [summarize, JSValue.or, htitle]
  · intro hauthor
    rw [get_set_other _ _ _ _ (by decide), get_set_other _ _ _ _ (by decide)]
    simp [summarize, JSValue.or, hauthor]
  · intro hdate
    rw [get_set_other _ _ _ _ (by decide), get_set_other _ _ _ _ (by decide)]
    simp [summarize, JSValue.or, hdate]
  · intro htags
    rw [get_set_other _ _ _ _ (by decide), get_set_other _ _ _ _ (by decide)]
    simp [summarize, JSValue.or, htags]

/-- C3, on the January post of the directory of the two dated posts: the detail for
the slug `a` has the slug, title, author, date and tags of the summary. -/
theorem detail_matches_summary_witness :
    summarize (lit "a.md") januaryData (lit "Hello") (clockMay1 0) = januarySummary ∧
    ∃ detail, getPost sampleRuntime datedDir
        (summarize (lit "a.md") januaryData (lit "Hello") (clockMay1 0)).slug
        = .json 200 detail ∧
      detail.get (lit "slug")
        = .str (summarize (lit "a.md") januaryData (lit "Hello") (clockMay1 0)).slug ∧
      detail.get (lit "title")
        = (summarize (lit "a.md") januaryData (lit "Hello") (clockMay1 0)).title ∧
      detail.get (lit "author")
        = (summarize (lit "a.md") januaryData (lit "Hello") (clockMay1 0)).author ∧
      detail.get (lit "date")
        = (summarize (lit "a.md") januaryData (lit "Hello") (clockMay1 0)).date ∧
      detail.get (lit "tags")
        = (summarize (lit "a.md") januaryData (lit "Hello") (clockMay1 0)).tags :=
  ⟨rfl,
    match detail_matches_summary sampleRuntime datedDir (lit "a.md") januaryDoc januaryData
      (lit "Hello") (clockMay1 0) rfl rfl with
    | ⟨detail, hdetail, hslug, htitle, hauthor, hdate, htags⟩ =>
      ⟨detail, hdetail, hslug, htitle rfl, hauthor rfl, hdate rfl, htags rfl⟩⟩

/-- C3 fails as stated: for the post `Hello` without front matter, listed on 1 May,
the date of the summary is the clock reading of the listing and the detail for the
listed slug has no date; and the summary has the title `Untitled`, the author
`Anonymous` and the empty tag list, where the detail has none of the three keys. -/
theorem detail_lacks_summary_defaults :
    ∃ p detail,
      getPosts sampleRuntime (dirOf [(lit "a.md", helloDoc)]) clockMay1 = .json 200 [p] ∧
      getPost sampleRuntime (dirOf [(lit "a.md", helloDoc)]) p.slug = .json 200 detail ∧
      p.date = .str (lit "2024-05-01T00:00:00.000Z") ∧ detail.get (lit "date") = .undefined ∧
      p.title = .str (lit "Untitled") ∧ detail.get (lit "title") = .undefined ∧
      p.author = .str (lit "Anonymous") ∧ detail.get (lit "author") = .undefined ∧
      p.tags = .arr [] ∧ detail.get (lit "tags") = .undefined ∧
      detail.get (lit "date") ≠ p.date ∧ detail.get (lit "title") ≠ p.title :=
  ⟨_, _, rfl, rfl, rfl, rfl, rfl, rfl, rfl, rfl, rfl, rfl,
    by
      show JSValue.undefined ≠ JSValue.str (lit "2024-05-01T00:00:00.000Z")
      exact fun h => JSValue.noConfusion h,
    by
      show JSValue.undefined ≠ JSValue.str (lit "Untitled")
      exact fun h => JSValue.noConfusion h⟩

/-! ### The clock -/

theorem buildPosts_clock_independent (rt : Runtime) (dir : PostsDir)
    (now1 now2 : Nat → JSString) (files : List JSString)
    (hdated : ∀ file ∈ files, endsWith file (lit ".md") = true →
      ∀ content data body, dir.readFile file = some content →
        rt.matter content = some (data, body) → (data.get (lit "date")).truthy = true)
    (i : Nat) (acc : List PostSummary) :
    buildPosts rt dir now1 files i acc = buildPosts rt dir now2 files i acc := by
  induction files generalizing i acc with
  | nil => rfl
  | cons file rest ih =>
    have hrest : ∀ f ∈ rest, endsWith f (lit ".md") = true →
        ∀ content data body, dir.readFile f = some content →
          rt.matter content = some (data, body) → (data.get (lit "date")).truthy = true :=
      fun f hf => hdated f (List.mem_cons_of_mem _ hf)
    unfold buildPosts
    split
    · rename_i hmd
      cases hread : dir.readFile file with
      | none => rfl
      | some content =>
        simp only []
        cases hmatter : rt.matter content with
        | none => rfl
        | some pair =>
          obtain ⟨data, body⟩ := pair
          have hd := hdated file (List.mem_cons_self _ _) hmd content data body hread hmatter
          have hsum : summarize file data body (now1 i) = summarize file data body (now2 i) := by
            simp [summarize, JSValue.or, hd]
          simp only [hsum]
          exact ih hrest _ _
    · exact ih hrest _ _

/-- C8, as the code has it: when the front matter of every markdown post of the
directory has a truthy date, two calls of the listing made with any two clocks
send the same response. -/
theorem listPosts_clock_independent (rt : Runtime) (dir : PostsDir)
    (now1 now2 : Nat → JSString)
    (hdated : ∀ files, dir.readdir = some files → ∀ file ∈ files,
      endsWith file (lit ".md") = true → ∀ content data body,
        dir.readFile file = some content → rt.matter content = some (data, body) →
          (data.get (lit "date")).truthy = true) :
    getPosts rt dir now1 = getPosts rt dir now2 := by
  unfold getPosts listPosts
  cases hfiles : dir.readdir with
  | none => rfl
  | some files =>
    simp only [buildPosts_clock_independent rt dir now1 now2 files (hdated files hfiles) 0 []]

/-- C8, on the directory of the two dated posts: the listing is the same on 1 May and
on 2 May. -/
theorem listPosts_clock_independent_witness :
    getPosts sampleRuntime datedDir clockMay1 = .json 200 [marchSummary, januarySummary] ∧
    getPosts sampleRuntime datedDir clockMay1 = getPosts sampleRuntime datedDir clockMay2 :=
  ⟨rfl, listPosts_clock_independent sampleRuntime datedDir clockMay1 clockMay2 (by
    intro files hfiles file hfile _ content data body hread hmatter
    have hf : files = [lit "a.md", lit "b.md"] := (Option.some.inj hfiles).symm
    subst hf
    simp only [List.mem_cons, List.mem_singleton, List.not_mem_nil, or_false] at hfile
    rcases hfile with rfl | rfl
    · have hc : content = januaryDoc := (Option.some.inj hread).symm
      subst hc
      have hm : (data, body) = (januaryData, lit "Hello") := (Option.some.inj hmatter).symm
      cases hm
      rfl
    · have hc : content = marchDoc := (Option.some.inj hread).symm
      subst hc
      have hm : (data, body) = (marchData, lit "World") := (Option.some.inj hmatter).symm
      cases hm
      rfl)⟩

/-- C8 fails as stated: for a directory with the one post `Hello`, which has no
date, the listing made on 1 May and the listing made on 2 May differ, each carries
the clock reading as the date. -/
theorem listPosts_depends_on_clock :
    getPosts sampleRuntime (dirOf [(lit "a.md", helloDoc)]) clockMay1 ≠
      getPosts sampleRuntime (dirOf [(lit "a.md", helloDoc)]) clockMay2 := by
  show Response.json 200 [summarize (lit "a.md") [] (lit "Hello") (clockMay1 0)] ≠
    Response.json 200 [summarize (lit "a.md") [] (lit "Hello") (clockMay2 0)]
  intro h
  have hdate := congrArg (fun r => match r with
    | Response.json _ [p] => p.date
    | _ => JSValue.undefined) h
  have hstr : JSValue.str (clockMay1 0) = JSValue.str (clockMay2 0) := hdate
  rw [JSValue.str.injEq] at hstr
  revert hstr
  decide

/-! ### GET /api/config -/

/-- C4, as the code has it: a first analytics key of more than 11 code units is not
a substring of `googleAnalyticsId`, and a second key of more than 7 code units is
not a substring of `mixpanelToken`; each identifier is shorter than such a key. -/
theorem config_hides_long_credentials (env : Env) :
    (∀ key1 : JSString, env.ANALYTICS_KEY_1 = some key1 → 11 < key1.length →
      ∃ id, (configBody env).googleAnalyticsId = some id ∧ ¬ includes id key1) ∧
    (∀ key2 : JSString, env.ANALYTICS_KEY_2 = some key2 → 7 < key2.length →
      ∃ token, (configBody env).mixpanelToken = some token ∧ ¬ includes token key2) := by
  constructor
  · intro key1 h1 hlen
    have hne : key1 ≠ [] := by
      intro h
      simp [h] at hlen
    refine ⟨lit "GA-" ++ slice key1 (-8) none, ?_, ?_⟩
    · simp [configBody, h1, MaybeString.truthy, hne]
    · intro hin
      have hle := List.IsInfix.length_le hin
      have h8 := length_slice_last_eight key1
      have h3 : (lit "GA-").length = 3 := by decide
      rw [List.length_append, h3] at hle
      omega
  · intro key2 h2 hlen
    have hne : key2 ≠ [] := by
      intro h
      simp [h] at hlen
    refine ⟨slice key2 0 (some 4) ++ lit "...", ?_, ?_⟩
    · simp [configBody, h2, MaybeString.truthy, hne]
    · intro hin
      have hle := List.IsInfix.length_le hin
      have h4 : slice key2 0 (some ((4 : Nat) : Int)) = key2.take 4 := slice_zero_eq_take key2 4
      have h3 : (lit "...").length = 3 := by decide
      simp only [Nat.cast_ofNat] at h4
      rw [List.length_append, h3, h4, List.length_take] at hle
      omega

/-- C4, at concrete keys: a 12 unit first key and an 8 unit second key are not
substrings of the identifiers sent. -/
theorem config_hides_long_credentials_witness :
    (∃ id, (configBody ⟨some (lit "UA-123456-78"), some (lit "abcdef01"), none, none⟩).googleAnalyticsId
        = some id ∧ ¬ includes id (lit "UA-123456-78")) ∧
    (∃ token, (configBody ⟨some (lit "UA-123456-78"), some (lit "abcdef01"), none, none⟩).mixpanelToken
        = some token ∧ ¬ includes token (lit "abcdef01")) :=
  ⟨(config_hides_long_credentials _).1 _ rfl (by decide),
   (config_hides_long_credentials _).2 _ rfl (by decide)⟩

/-- C4 fails as stated: the key `abc` is sent whole inside `GA-abc`, and the key
`abcd` whole inside `abcd...`. -/
theorem config_exposes_short_credentials :
    (configBody ⟨some (lit "abc"), some (lit "abcd"), none, none⟩).googleAnalyticsId
      = some (lit "GA-abc") ∧
    includes (lit "GA-abc") (lit "abc") ∧
    (configBody ⟨some (lit "abc"), some (lit "abcd"), none, none⟩).mixpanelToken
      = some (lit "abcd...") ∧
    includes (lit "abcd...") (lit "abcd") :=
  ⟨rfl, ⟨lit "GA-", [], rfl⟩, rfl, ⟨[], lit "...", rfl⟩⟩

/-! ### GET /api/stats -/

/-- C5: with the backend secret set to `s`, the handler sends the fixed statistics
with status 200 exactly when the Authorization header is `Bearer ` followed by `s`,
and sends the 401 error for an absent header and for every other header. -/
theorem stats_ok_iff_bearer_secret (env : Env) (s : JSString)
    (hs : env.BACKEND_SECRET = some s) (authHeader : MaybeString) :
    (getStats env authHeader = .json 200 ⟨4, 127, 3420, 89⟩ ↔
      authHeader = some (lit "Bearer " ++ s)) ∧
    (authHeader ≠ some (lit "Bearer " ++ s) →
      getStats env authHeader = .error 401 (lit "Unauthorized")) := by
  have hb : ∀ t : JSString, MaybeString.truthy (some (lit "Bearer " ++ t)) = true := by
    intro t
    simp [MaybeString.truthy, lit]
  by_cases h : authHeader = some (lit "Bearer " ++ s)
  · subst h
    simp [getStats, hs, MaybeString.interpolate, hb, fixedStats]
  · simp [getStats, hs, MaybeString.interpolate, h]

/-- C5, at the secret `s3cret`: the header `Bearer s3cret` gets the statistics. -/
theorem stats_ok_iff_bearer_secret_witness :
    getStats ⟨none, none, none, some (lit "s3cret")⟩ (some (lit "Bearer s3cret"))
      = .json 200 ⟨4, 127, 3420, 89⟩ :=
  (stats_ok_iff_bearer_secret ⟨none, none, none, some (lit "s3cret")⟩ (lit "s3cret") rfl
    (some (lit "Bearer s3cret"))).1.mpr rfl

/-- C6 fails on the code: with no backend secret in the environment the header
`Bearer undefined` gets the statistics with status 200, whatever the other
variables are. -/
theorem stats_unset_secret_accepts_undefined (key1 key2 payment : MaybeString) :
    getStats ⟨key1, key2, payment, none⟩ (some (lit "Bearer undefined"))
      = .json 200 ⟨4, 127, 3420, 89⟩ := rfl

/-! ### POST /api/subscribe -/

/-- C7: for an email that is absent or a string, the handler sends the 400 error
exactly when the email is absent or empty, and otherwise sends status 200 with
`success: true`, the fixed message and `premium`, which is true exactly when the
payment key is set to a non-empty string; the response is the same for every other
non-empty email and every environment with the same payment key. -/
theorem subscribe_response (env : Env) (email : JSValue)
    (hemail : email = .undefined ∨ ∃ s, email = .str s) :
    (subscribe env email = .error 400 (lit "Email required") ↔
      (email = .undefined ∨ email = .str [])) ∧
    (¬ (email = .undefined ∨ email = .str []) →
      subscribe env email =
        .json 200 ⟨true, lit "Subscription successful", env.PAYMENT_API_KEY.truthy⟩ ∧
      ∀ (other : Env) (s : JSString), s ≠ [] →
        other.PAYMENT_API_KEY = env.PAYMENT_API_KEY →
        subscribe other (.str s) = subscribe env email) ∧
    (env.PAYMENT_API_KEY.truthy = true ↔
      ∃ key, env.PAYMENT_API_KEY = some key ∧ key ≠ []) := by
  refine ⟨?_, ?_, ?_⟩
  · rcases hemail with h | ⟨s, h⟩
    · subst h
      simp [subscribe, JSValue.truthy]
    · subst h
      cases s <;> simp [subscribe, JSValue.truthy]
  · intro hne
    rcases hemail with h | ⟨s, h⟩
    · exact absurd (Or.inl h) hne
    · subst h
      have hs : s ≠ [] := fun h0 => hne (Or.inr (by rw [h0]))
      have hs2 : s.isEmpty = false := by
        cases s
        · exact absurd rfl hs
        · rfl
      refine ⟨by simp [subscribe, JSValue.truthy, hs2], ?_⟩
      intro other t ht hpay
      have ht2 : t.isEmpty = false := by
        cases t
        · exact absurd rfl ht
        · rfl
      simp [subscribe, JSValue.truthy, hs2, ht2, hpay]
  · cases hk : env.PAYMENT_API_KEY with
    | none => simp [MaybeString.truthy]
    | some key => cases key <;> simp [MaybeString.truthy]

/-- C7, at the email `a@b.com` with a payment key set: status 200 with `premium`
true. -/
theorem subscribe_response_witness :
    subscribe ⟨none, none, some (lit "sk_test_1"), none⟩ (.str (lit "a@b.com"))
      = .json 200 ⟨true, lit "Subscription successful", true⟩ :=
  ((subscribe_response ⟨none, none, some (lit "sk_test_1"), none⟩ (.str (lit "a@b.com"))
    (Or.inr ⟨_, rfl⟩)).2.1 (by simp [lit])).1

end BlogServer
